import Mathlib

/-!
# Verification of the vector-db-benchmark orchestration core

Shallow embedding of the benchmark orchestration engine:

* `engine/base_client/client.py` — the Experiment Runner
  (`BaseClient.run_experiment`, `save_upload_results`, `save_search_results`)
  together with its glob-addressable result store;
* `run_profile.py` — the Profiling Coordinator (`run_profile`), the recovery
  wait (`wait_for_indexing_completion`) and the sweep driver (`test`);
* `run_profile_perf.py` — the perf-based Profiling Coordinator
  (`parse_perf_text`, `run_profile`, `test`);
* `trace_system_fault.py` — the continuous kernel-probe tracer's text output;
* `profile_results/create_summary_csv.py` — the summarization step.

The result store is modelled as a list of artifacts; `pathlib` glob matching
over filenames `{experiment}-{dataset}-search-{id}-{timestamp}.json` becomes
predicate filtering over the artifact fields the glob pattern constrains.
Timestamps are modelled by a monotone counter (each write gets a fresh one).
Stage-result dictionaries are modelled by their key sets, the only part the
persistence claims depend on; `dict.pop(k, None)` becomes key removal.
-/

namespace VDB

/-- Keys of a stage-result dictionary (`upload_stats` / `search_stats`). -/
abbrev Stats := List String

/-- `stats.pop(k, None)`: remove key `k` if present. -/
def popKey (stats : Stats) (k : String) : Stats :=
  stats.filter (fun x => x ≠ k)

/-- The stage tag embedded in a result filename: `upload` or `search-{id}`. -/
inductive Stage
  | upload
  | search (searchId : Nat)
deriving DecidableEq, Repr

def isSearchStage : Stage → Bool
  | .search _ => true
  | .upload => false

/-- One persisted JSON artifact, keyed the way the filename is:
`{experiment}-{dataset}-{upload|search-{id}}-{timestamp}.json`, holding the
`results` dict that was persisted. -/
structure Artifact where
  experiment : String
  dataset : String
  stage : Stage
  timestamp : Nat
  results : Stats
deriving DecidableEq, Repr

/-- The append-only result store (`RESULTS_DIR`). -/
abbrev Store := List Artifact

/-- Glob `f"{name}-{dataset}-search-*-*.json"`: any search id, any timestamp. -/
def matchesSearchAny (name dataset : String) (a : Artifact) : Bool :=
  a.experiment == name && a.dataset == dataset && isSearchStage a.stage

/-- Glob `f"{name}-{dataset}-search-{search_id}-*.json"`: fixed id. -/
def matchesSearchId (name dataset : String) (i : Nat) (a : Artifact) : Bool :=
  a.experiment == name && a.dataset == dataset && (a.stage == Stage.search i)

/-- `len(RESULTS_DIR.glob(f"{name}-{dataset}-search-*-*.json"))`. -/
def countAny (store : Store) (name dataset : String) : Nat :=
  (store.filter (matchesSearchAny name dataset)).length

/-- `len(RESULTS_DIR.glob(f"{name}-{dataset}-search-{i}-*.json"))`. -/
def countId (store : Store) (name dataset : String) (i : Nat) : Nat :=
  (store.filter (matchesSearchId name dataset i)).length

/-- The engine backend behind a `BaseClient`: what `uploader.upload` and each
`searchers[i].search_all` return (as key sets), how many searchers are
configured, and whether the uploader exposes `ensure_loaded`. -/
structure Backend where
  uploadStats : Stats
  searchStats : Nat → Stats
  numSearchers : Nat
  hasEnsureLoaded : Bool

/-- Observable stage invocations of one `run_experiment` call. -/
inductive Event
  | configure
  | upload
  | ensureLoaded
  | search (searchId : Nat)
deriving DecidableEq, Repr

/-- Arguments of `BaseClient.run_experiment` (default values as in the source). -/
structure RunFlags where
  skipUpload : Bool := false
  skipSearch : Bool := false
  skipIfExists : Bool := true
  skipConfigure : Bool := false
deriving DecidableEq, Repr

/-- The search stats persisted for search id `i` (client.py lines 181–188):
the raw `searcher.search_all` result, with `latencies` and `precisions`
popped unless `DETAILED_RESULTS`. -/
def searchPersisted (env : Backend) (detailed : Bool) (i : Nat) : Stats :=
  if !detailed then popKey (popKey (env.searchStats i) "latencies") "precisions"
  else env.searchStats i

/-- The upload stats persisted (client.py lines 112–127): the raw
`uploader.upload` result, with only `latencies` popped unless
`DETAILED_RESULTS`. -/
def uploadPersisted (env : Backend) (detailed : Bool) : Stats :=
  if !detailed then popKey env.uploadStats "latencies"
  else env.uploadStats

/-- The `for search_id, searcher in enumerate(self.searchers):` loop of
`run_experiment` (client.py lines 156–191), over the remaining list of search
ids.  For each id: under `skip_if_exists`, glob for
`{name}-{dataset}-search-{id}-*.json` and `continue` when at least one match
exists; otherwise run the searcher, strip `latencies`/`precisions` from the
stats unless `DETAILED_RESULTS`, and persist one search artifact. -/
def runSearchLoop (env : Backend) (detailed : Bool) (name dataset : String)
    (skipIfExists : Bool) :
    Store → List Event → Nat → List Nat → Store × List Event × Nat
  | store, tr, clock, [] => (store, tr, clock)
  | store, tr, clock, i :: rest =>
    if skipIfExists && decide (1 ≤ countId store name dataset i) then
      runSearchLoop env detailed name dataset skipIfExists store tr clock rest
    else
      let a : Artifact :=
        ⟨name, dataset, .search i, clock, searchPersisted env detailed i⟩
      runSearchLoop env detailed name dataset skipIfExists
        (store ++ [a]) (tr ++ [.search i]) (clock + 1) rest

/-- `BaseClient.run_experiment` (client.py lines 83–193), as a function from
the store (plus a timestamp clock) to the new store, the trace of stage
invocations, and the advanced clock.

Control flow follows the source: the whole-run skip check under
`skip_if_exists` (count of `search-*-*` artifacts equal to
`len(self.searchers)`) happens first; Configure runs only inside the
`if not skip_upload` branch and only when `skip_configure` is false; Upload
strips `latencies` unless `DETAILED_RESULTS` and persists one upload
artifact; under `skip_search=False`, when upload was skipped and the uploader
has `ensure_loaded`, the load-wait runs once, then the search loop. -/
def run_experiment (env : Backend) (detailed : Bool) (name dataset : String)
    (flags : RunFlags) (store : Store) (clock : Nat) :
    Store × List Event × Nat :=
  if flags.skipIfExists && (countAny store name dataset == env.numSearchers)
  then (store, [], clock)
  else
    let s1 : Store × List Event × Nat :=
      if !flags.skipUpload then
        let trc : List Event :=
          if !flags.skipConfigure then [.configure] else []
        let a : Artifact :=
          ⟨name, dataset, .upload, clock, uploadPersisted env detailed⟩
        (store ++ [a], trc ++ [.upload], clock + 1)
      else (store, [], clock)
    if !flags.skipSearch then
      let tr2 :=
        if flags.skipUpload && env.hasEnsureLoaded then
          s1.2.1 ++ [.ensureLoaded]
        else s1.2.1
      runSearchLoop env detailed name dataset flags.skipIfExists
        s1.1 tr2 s1.2.2 (List.range env.numSearchers)
    else s1

/-- A concrete backend used to instantiate the runner theorems: two search
configurations, stats dictionaries carrying the verbose keys. -/
def sampleEnv : Backend where
  uploadStats := ["latencies", "total_time"]
  searchStats := fun _ => ["latencies", "precisions", "rps"]
  numSearchers := 2
  hasEnsureLoaded := false

/-! ### Sequences of runs and the store invariant -/

/-- A sequence of `run_experiment` invocations threading the store and the
timestamp clock; each invocation carries its own detailed-results toggle and
flag values. -/
def runSeq (env : Backend) (name dataset : String) :
    Store × Nat → List (Bool × RunFlags) → Store × Nat
  | sc, [] => sc
  | sc, (detailed, flags) :: rest =>
    let r := run_experiment env detailed name dataset flags sc.1 sc.2
    runSeq env name dataset (r.1, r.2.2) rest

/-- Store invariant for one `(experiment, dataset)` pair: at most one Search
artifact per configured id, none outside the configured range, and the total
equal to the per-id sum. -/
def storeInv (env : Backend) (name dataset : String) (store : Store) : Prop :=
  (∀ i, countId store name dataset i ≤ 1)
  ∧ (∀ i, env.numSearchers ≤ i → countId store name dataset i = 0)
  ∧ countAny store name dataset =
      ((List.range env.numSearchers).map
        (fun i => countId store name dataset i)).sum

/-- A one-searcher backend with empty stage results, used for the C5
counterexample. -/
def oneEnv : Backend where
  uploadStats := []
  searchStats := fun _ => []
  numSearchers := 1
  hasEnsureLoaded := false

/-- A backend whose uploader also reports `precisions`, used to exhibit the
asymmetry of the upload-side trimming. -/
def precEnv : Backend where
  uploadStats := ["latencies", "precisions", "upload_time"]
  searchStats := fun _ => ["latencies", "precisions", "rps"]
  numSearchers := 1
  hasEnsureLoaded := false

/-! ### Profiling Coordinator: tracer teardown (run_profile.py lines 182–211)

`run_profile` launches the tracer with `subprocess.Popen`, runs the measured
command, and in a `finally:` block — provided `profiler_process` is not None,
i.e. the launch succeeded — calls `terminate()`, `wait(timeout=5)`, and
`kill()` only when the wait raises `TimeoutExpired`.  The environment decides
whether the launch succeeds, whether the measured try body (the settle sleep
plus `subprocess.run(cmd, check=True)`) completes or raises, and whether the
tracer exits within the graceful-wait interval. -/

structure ProfileEnv where
  launchOk : Bool
  mainOk : Bool
  gracefulExit : Bool
deriving DecidableEq, Repr

/-- Observable actions on the tracer process, in order. -/
inductive TracerAct
  | launch
  | terminate
  | waitTimeout
  | kill
deriving DecidableEq, Repr

/-- How `run_profile` returns to its caller. -/
inductive ProfileResult
  | ok
  | raised
deriving DecidableEq, Repr

/-- `run_profile` (run_profile.py lines 182–211): the result and the ordered
trace of tracer-process actions.  When `Popen` itself raises,
`profiler_process` is still `None` and the `finally:` block does nothing;
otherwise the terminate/wait(5)/kill-on-timeout sequence runs exactly once,
whatever the try body did. -/
def run_profile (env : ProfileEnv) : ProfileResult × List TracerAct :=
  if !env.launchOk then
    (.raised, [])
  else
    let body : ProfileResult := if env.mainOk then .ok else .raised
    let teardown : List TracerAct :=
      [.terminate, .waitTimeout] ++ (if env.gracefulExit then [] else [.kill])
    (body, [.launch] ++ teardown)

/-! ### Sweep driver cells (run_profile.py lines 264–278,
run_profile_perf.py lines 331–342)

Each sweep cell runs `try: start; (upload); wait/confirm; profile; stop
finally: stop`.  The environment decides which step raises; the model returns
how many times `stop_docker_containers` was invoked and whether the cell
propagates an exception. -/

structure CellEnv where
  startOk : Bool
  isExist : Bool
  uploadOk : Bool
  waitOk : Bool
  profileOk : Bool
  stopOk : Bool
deriving DecidableEq, Repr

/-- One cell of `test()` in run_profile.py (lines 264–278): the try body runs
start, upload, wait-for-indexing, run-profile, then stop; the finally block
runs stop unconditionally. -/
def cellProfile (env : CellEnv) : Nat × Bool :=
  let tr : Nat × Bool :=
    if !env.startOk then (0, true)
    else if !env.uploadOk then (0, true)
    else if !env.waitOk then (0, true)
    else if !env.profileOk then (0, true)
    else (1, !env.stopOk)
  (tr.1 + 1, tr.2 || !env.stopOk)

/-- One cell of `test()` in run_profile_perf.py (lines 331–342): as above but
upload runs only when `start_docker_containers` reported no pre-existing
volumes (`is_exist` false), and the wait step is `confirm_loaded`. -/
def cellPerf (env : CellEnv) : Nat × Bool :=
  let tr : Nat × Bool :=
    if !env.startOk then (0, true)
    else if !env.isExist && !env.uploadOk then (0, true)
    else if !env.waitOk then (0, true)
    else if !env.profileOk then (0, true)
    else (1, !env.stopOk)
  (tr.1 + 1, tr.2 || !env.stopOk)

/-! ### Recovery wait: `wait_for_indexing_completion`
(run_profile.py lines 215–254; estimate_size.py lines 133–172 is an
identical copy)

The function calls `connections.connect` (line 218 / 136) and
`utility.has_collection` (line 220 / 138) — both remote calls that run
*before* the `try:` block, so an exception in either propagates to the
caller.  A missing collection returns early.  Inside the `try:` block it
flushes, polls index-build progress until the indexed row count equals the
total (a falsy progress dict also breaks), then polls compaction state until
it reports `Completed`; `except Exception` prints a warning and falls
through, `finally:` disconnects, and the function returns `None` either way.
Poll responses (and the two pre-try remote calls) are supplied as scripts
that either yield a value or raise; an exhausted poll script stands for the
unbounded loop polling forever. -/

structure WaitEnv where
  connectResult : Except String Unit
  hasCollection : Except String Bool
  flushErr : Bool
  indexPolls : List (Except String (Option (Nat × Nat)))
  compactionPolls : List (Except String String)

inductive WaitOutcome
  | returnedNoWarning
  | returnedWithWarning
  | diverged
deriving DecidableEq, Repr

/-- The `while True:` loop over `utility.index_building_progress` responses:
`none` models a falsy progress dict (break); `some (total, indexed)` breaks
when the two counts agree; an `Except.error` is an exception escaping to the
handler.  An exhausted script is the loop never terminating. -/
def waitIndexLoop : List (Except String (Option (Nat × Nat))) →
    Option (Except String Unit)
  | [] => none
  | r :: rest =>
    match r with
    | .error e => some (.error e)
    | .ok none => some (.ok ())
    | .ok (some (total, indexed)) =>
      if total == indexed then some (.ok ()) else waitIndexLoop rest

/-- The `while True:` loop over `collection.get_compaction_state()`
responses: break when the state name is `Completed`. -/
def waitCompactionLoop : List (Except String String) →
    Option (Except String Unit)
  | [] => none
  | r :: rest =>
    match r with
    | .error e => some (.error e)
    | .ok st => if st == "Completed" then some (.ok ()) else
        waitCompactionLoop rest

/-- The body of the `try:` block (flush, index loop, compaction loop):
`none` = diverged in a poll loop, `some (.error e)` = an exception reached
the handler, `some (.ok ())` = both waits completed. -/
def waitTryBody (env : WaitEnv) : Option (Except String Unit) :=
  if env.flushErr then some (.error "flush")
  else
    match waitIndexLoop env.indexPolls with
    | none => none
    | some (.error e) => some (.error e)
    | some (.ok _) =>
      match waitCompactionLoop env.compactionPolls with
      | none => none
      | some (.error e) => some (.error e)
      | some (.ok _) => some (.ok ())

/-- `wait_for_indexing_completion`: the `connections.connect` and
`utility.has_collection` calls run before the `try:`, so a failure in either
propagates (`Except.error`); a missing collection returns early; otherwise
the try body's outcome is mapped through the `except Exception` handler — an
exception there becomes a logged warning and a normal return. -/
def wait_for_indexing_completion (env : WaitEnv) :
    Except String WaitOutcome :=
  match env.connectResult with
  | .error e => .error e
  | .ok _ =>
    match env.hasCollection with
    | .error e => .error e
    | .ok false => .ok .returnedNoWarning
    | .ok true =>
      match waitTryBody env with
      | none => .ok .diverged
      | some (.error _) => .ok .returnedWithWarning
      | some (.ok _) => .ok .returnedNoWarning

/-! ### Summarization filter
(profile_results/create_summary_csv.py lines 110–139)

`aggregated_data` maps a `comm-event` key to per-run counts keyed by the
`dataset-size-iteration` column header; a missing entry reads as the `.get`
default `0`.  The filtering step keeps exactly the comm-events whose count is
non-zero in every run, and the writer emits one CSV row per run holding the
retained comm-events' exact counts. -/

abbrev Agg := List (String × List (String × Nat))

/-- `aggregated_data[comm_event].get(col_header, 0)`. -/
def getCount (agg : Agg) (ce col : String) : Nat :=
  match agg.lookup ce with
  | some m => (m.lookup col).getD 0
  | none => 0

/-- `sorted(...)` over strings (`sorted_comm_events` / `sorted_columns` use a
key, which does not affect membership). -/
def sortedStrings (l : List String) : List String :=
  l.mergeSort (fun a b => decide (a ≤ b))

/-- The filtering loop (lines 112–120): keep a comm-event iff its count is
non-zero in every run column. -/
def commonCommEvents (agg : Agg) (cols ces : List String) : List String :=
  (sortedStrings ces).filter
    (fun ce => cols.all (fun col => !(getCount agg ce col == 0)))

/-- The writer loop (lines 133–139): one row per run, carrying the exact
count of every retained comm-event (default 0 via `.get`). -/
def summaryRows (agg : Agg) (cols common : List String) :
    List (String × List (String × Nat)) :=
  cols.map (fun row => (row, common.map (fun ce => (ce, getCount agg ce row))))

/-! ### Tracer text output: the two variants (claim C9)

`trace_system_fault.py` (lines 80–93) prints a header line, then a
"Tracing system-wide …" banner line, then one line per event; `parse_perf_text`
in run_profile_perf.py (lines 169–201) emits the header line followed directly
by one line per recognized event.  Both build their lines with the same
format specs (`{:<12.6f} {:<16} {:<10} {:<12}` plus `Size={}` for Disk IO);
a time value is modelled by the very (seconds, six-decimal-digits) pair the
`%.6f` conversion prints.  The summarizer (`parse_log_file`, create_summary_csv.py
lines 6–29) skips the first two lines of a file unconditionally, applies the
event regex to each remaining stripped line, and counts `comm-event` keys. -/

structure TraceTime where
  sec : Nat
  micro : Nat
deriving DecidableEq, Repr

inductive TraceEventKind
  | majorFault
  | diskIo (bytes : Nat)
deriving DecidableEq, Repr

structure TraceEvent where
  time : TraceTime
  comm : String
  pid : Nat
  kind : TraceEventKind
deriving DecidableEq, Repr

/-- Python `"{:<w}".format(s)`: left-justify, pad with spaces, no truncation. -/
def padRight (s : String) (w : Nat) : String :=
  s ++ String.mk (List.replicate (w - s.length) ' ')

/-- The six-decimal-digit rendering of a time, as `%.6f` prints it. -/
def fmt6 (t : TraceTime) : String :=
  toString t.sec ++ "." ++
    (String.mk (List.replicate (6 - (toString t.micro).length) '0') ++
      toString t.micro)

/-- trace_system_fault.py line 80: the column header line. -/
def bpfHeader : String :=
  padRight "TIME(s)" 12 ++ " " ++ padRight "COMM" 16 ++ " " ++
    padRight "PID" 10 ++ " " ++ padRight "EVENT" 12 ++ " " ++ "DETAILS"

/-- trace_system_fault.py line 93: the banner printed to the same output file
after the header, before any event line. -/
def bpfBanner : String :=
  "Tracing system-wide major faults & disk IO... Ctrl-C to stop."

/-- trace_system_fault.py lines 82–88 (`print_fault_event` /
`print_io_event`): one text line per event. -/
def bpfEventLine (e : TraceEvent) : String :=
  match e.kind with
  | .majorFault =>
    padRight (fmt6 e.time) 12 ++ " " ++ padRight e.comm 16 ++ " " ++
      padRight (toString e.pid) 10 ++ " " ++ padRight "Major Fault" 12
  | .diskIo bytes =>
    padRight (fmt6 e.time) 12 ++ " " ++ padRight e.comm 16 ++ " " ++
      padRight (toString e.pid) 10 ++ " " ++ padRight "Disk IO" 12 ++
      " Size=" ++ toString bytes

/-- The kernel-probe variant's output file, as lines: header, banner, then
one line per event. -/
def bpfFileLines (events : List TraceEvent) : List String :=
  bpfHeader :: bpfBanner :: events.map bpfEventLine

/-- run_profile_perf.py lines 174–175: the header line `parse_perf_text`
starts its output with. -/
def perfHeader : String :=
  padRight "TIME(s)" 12 ++ " " ++ padRight "COMM" 16 ++ " " ++
    padRight "PID" 10 ++ " " ++ padRight "EVENT" 12 ++ " " ++ "DETAILS"

/-- run_profile_perf.py lines 191–199: the line `parse_perf_text` appends for
a recognized major-fault or block-IO event. -/
def perfEventLine (e : TraceEvent) : String :=
  match e.kind with
  | .majorFault =>
    padRight (fmt6 e.time) 12 ++ " " ++ padRight e.comm 16 ++ " " ++
      padRight (toString e.pid) 10 ++ " " ++ padRight "Major Fault" 12
  | .diskIo bytes =>
    padRight (fmt6 e.time) 12 ++ " " ++ padRight e.comm 16 ++ " " ++
      padRight (toString e.pid) 10 ++ " " ++ padRight "Disk IO" 12 ++
      " Size=" ++ toString bytes

/-- The perf variant's output file, as lines: the header, then one line per
event — no banner line. -/
def perfFileLines (events : List TraceEvent) : List String :=
  perfHeader :: events.map perfEventLine

/-! The summarizer's per-line parse, a transcription of the regex
`^\d+\.\d+\s+([\w.-]+)\s+(\d+)\s+([\w\s]+?)\s*(?:Size=.*|$)` applied to the
stripped line (create_summary_csv.py line 12): seconds digits, a dot, decimal
digits, whitespace, the COMM field (word chars, dots, dashes), whitespace,
the PID digits, whitespace, then the event text (word chars and spaces) up to
an optional `Size=` tail; the captured event is stripped. -/

def isWordChar (c : Char) : Bool :=
  c.isAlphanum || c == '_' || c == '-' || c == '.'

def isEventChar (c : Char) : Bool :=
  c.isAlphanum || c == '_' || c.isWhitespace

/-- `str.strip()` on a list of characters. -/
def trimChars (cs : List Char) : List Char :=
  ((cs.dropWhile (fun c => c.isWhitespace)).reverse.dropWhile
    (fun c => c.isWhitespace)).reverse

def startsWithSize : List Char → Bool
  | 'S' :: 'i' :: 'z' :: 'e' :: '=' :: _ => true
  | _ => false

/-- The `([\w\s]+?)\s*(?:Size=.*|$)` tail: consume word chars and spaces up
to a `Size=` occurrence or the end of the line; any other character means the
regex does not match. -/
def eventChars : List Char → Option (List Char)
  | [] => some []
  | c :: rest =>
    if startsWithSize (c :: rest) then some []
    else if isEventChar c then (eventChars rest).map (fun ev => c :: ev)
    else none

/-- `parse_log_file`'s per-line step: `line_regex.match(line.strip())`,
returning the COMM and stripped EVENT captures. -/
def parseTraceLine (line : String) : Option (String × String) :=
  let cs := trimChars line.toList
  let p1 := cs.span (fun c => c.isDigit)
  if p1.1.isEmpty then none
  else
    match p1.2 with
    | '.' :: cs2 =>
      let p2 := cs2.span (fun c => c.isDigit)
      if p2.1.isEmpty then none
      else
        let p3 := p2.2.span (fun c => c.isWhitespace)
        if p3.1.isEmpty then none
        else
          let p4 := p3.2.span isWordChar
          if p4.1.isEmpty then none
          else
            let p5 := p4.2.span (fun c => c.isWhitespace)
            if p5.1.isEmpty then none
            else
              let p6 := p5.2.span (fun c => c.isDigit)
              if p6.1.isEmpty then none
              else
                let p7 := p6.2.span (fun c => c.isWhitespace)
                if p7.1.isEmpty then none
                else
                  match eventChars p7.2 with
                  | some ev => some (String.mk p4.1, String.mk (trimChars ev))
                  | none => none
    | _ => none

/-- `parse_log_file` over a file given as lines: skip the first two lines,
parse each remaining line, and count `f"{comm}-{event}"` keys (the Counter,
represented as first-occurrence keys with their multiplicities). -/
def eventCounts (lines : List String) : List (String × Nat) :=
  let keys := (lines.drop 2).filterMap
    (fun l => (parseTraceLine l).map (fun p => p.1 ++ "-" ++ p.2))
  keys.dedup.map (fun k => (k, keys.count k))

/-! ## Theorems -/

/-! ### Counting lemmas for the result store -/

theorem matchesSearchId_eq (name dataset : String) (i : Nat) (a : Artifact) :
    matchesSearchId name dataset i a =
      (matchesSearchAny name dataset a && (a.stage == Stage.search i)) := by
  cases a with
  | mk e d st ts r =>
    cases st <;>
      simp [matchesSearchId, matchesSearchAny, isSearchStage, Bool.and_assoc]

theorem countId_le_countAny (store : Store) (name dataset : String) (i : Nat) :
    countId store name dataset i ≤ countAny store name dataset := by
  unfold countId countAny
  rw [← List.countP_eq_length_filter, ← List.countP_eq_length_filter]
  refine List.countP_mono_left (fun a _ h => ?_)
  rw [matchesSearchId_eq] at h
  exact (Bool.and_eq_true_iff.mp h).1

theorem countAny_append (s t : Store) (name dataset : String) :
    countAny (s ++ t) name dataset =
      countAny s name dataset + countAny t name dataset := by
  simp [countAny, List.filter_append]

theorem countId_append (s t : Store) (name dataset : String) (i : Nat) :
    countId (s ++ t) name dataset i =
      countId s name dataset i + countId t name dataset i := by
  simp [countId, List.filter_append]

theorem countAny_upload (name dataset : String) (ts : Nat) (r : Stats) :
    countAny [⟨name, dataset, .upload, ts, r⟩] name dataset = 0 := by
  simp [countAny, List.filter, matchesSearchAny, isSearchStage]

theorem countId_upload (name dataset : String) (ts : Nat) (r : Stats) (i : Nat) :
    countId [⟨name, dataset, .upload, ts, r⟩] name dataset i = 0 := by
  simp [countId, List.filter_cons, matchesSearchId, beq_iff_eq]

theorem countAny_searchArt (name dataset : String) (j ts : Nat) (r : Stats) :
    countAny [⟨name, dataset, .search j, ts, r⟩] name dataset = 1 := by
  simp [countAny, List.filter, matchesSearchAny, isSearchStage]

theorem countId_searchArt (name dataset : String) (j ts : Nat) (r : Stats)
    (i : Nat) :
    countId [⟨name, dataset, .search j, ts, r⟩] name dataset i =
      if i = j then 1 else 0 := by
  by_cases h : i = j <;>
    simp [countId, List.filter_cons, matchesSearchId, beq_iff_eq, h]
  exact fun h' => absurd h'.symm h

/-- `countAny store = 0` forces every per-id count to be `0`. -/
theorem countId_eq_zero_of_countAny (store : Store) (name dataset : String)
    (h : countAny store name dataset = 0) (i : Nat) :
    countId store name dataset i = 0 :=
  Nat.le_zero.mp (h ▸ countId_le_countAny store name dataset i)

/-! ### Behaviour of the search loop -/

theorem runSearchLoop_cons_skip (env : Backend) (detailed : Bool)
    (name dataset : String) (store : Store) (tr : List Event)
    (clock i : Nat) (rest : List Nat)
    (h : 1 ≤ countId store name dataset i) :
    runSearchLoop env detailed name dataset true store tr clock (i :: rest) =
      runSearchLoop env detailed name dataset true store tr clock rest := by
  simp [runSearchLoop, h]

theorem runSearchLoop_cons_run (env : Backend) (detailed : Bool)
    (name dataset : String) (store : Store) (tr : List Event)
    (clock i : Nat) (rest : List Nat) (sie : Bool)
    (h : countId store name dataset i = 0) :
    runSearchLoop env detailed name dataset sie store tr clock (i :: rest) =
      runSearchLoop env detailed name dataset sie
        (store ++ [⟨name, dataset, .search i, clock,
          searchPersisted env detailed i⟩])
        (tr ++ [.search i]) (clock + 1) rest := by
  simp [runSearchLoop, h]

/-- Behaviour of the search loop under `skip_if_exists=True` over a
duplicate-free list of search ids: the configurations run are exactly those
with no existing artifact (in order), each such configuration gains exactly
one artifact, and configurations with an existing artifact keep their count
unchanged. -/
theorem runSearchLoop_spec (env : Backend) (detailed : Bool)
    (name dataset : String) :
    ∀ (l : List Nat), l.Nodup →
    ∀ (store : Store) (tr : List Event) (clock : Nat),
    (runSearchLoop env detailed name dataset true store tr clock l).2.1 =
        tr ++ (l.filter
          (fun i => countId store name dataset i == 0)).map Event.search
    ∧ countAny
        (runSearchLoop env detailed name dataset true store tr clock l).1
        name dataset =
        countAny store name dataset +
          (l.filter (fun i => countId store name dataset i == 0)).length
    ∧ ∀ m, countId
        (runSearchLoop env detailed name dataset true store tr clock l).1
        name dataset m =
        if m ∈ l ∧ countId store name dataset m = 0 then 1
        else countId store name dataset m := by
  intro l
  induction l with
  | nil =>
    intro _ store tr clock
    simp [runSearchLoop]
  | cons i rest ih =>
    intro hnd store tr clock
    obtain ⟨hi, hndr⟩ := List.nodup_cons.mp hnd
    by_cases h0 : countId store name dataset i = 0
    · -- fresh id: one artifact is written, then the loop continues
      rw [runSearchLoop_cons_run env detailed name dataset store tr clock i
        rest true h0]
      set a : Artifact :=
        ⟨name, dataset, .search i, clock, searchPersisted env detailed i⟩
        with ha
      have hcid : ∀ m, countId (store ++ [a]) name dataset m =
          countId store name dataset m + if m = i then 1 else 0 := by
        intro m
        rw [countId_append, ha, countId_searchArt]
      have hcany : countAny (store ++ [a]) name dataset =
          countAny store name dataset + 1 := by
        rw [countAny_append, ha, countAny_searchArt]
      obtain ⟨htr, hany, hid⟩ := ih hndr (store ++ [a]) (tr ++ [.search i])
        (clock + 1)
      have hfilter : rest.filter
            (fun m => countId (store ++ [a]) name dataset m == 0) =
          rest.filter (fun m => countId store name dataset m == 0) := by
        refine List.filter_congr (fun m hm => ?_)
        have : ¬ m = i := fun h => hi (h ▸ hm)
        simp [hcid, this]
      refine ⟨?_, ?_, ?_⟩
      · rw [htr, hfilter, List.filter_cons]
        simp [h0]
      · rw [hany, hfilter, hcany, List.filter_cons]
        simp [h0, Nat.add_assoc, Nat.add_comm 1]
      · intro m
        rw [hid m]
        by_cases hmi : m = i
        · subst hmi
          have h1 : countId (store ++ [a]) name dataset m = 1 := by
            simp [hcid, h0]
          simp only [h1, hi, false_and, if_false, List.mem_cons, true_or,
            h0, and_self, if_true]
        · have heq : countId (store ++ [a]) name dataset m =
              countId store name dataset m := by simp [hcid, hmi]
          rw [heq]
          by_cases hmem : m ∈ rest <;> simp [hmem, hmi]
    · -- existing artifact: the configuration is skipped
      have h1 : 1 ≤ countId store name dataset i := Nat.one_le_iff_ne_zero.mpr h0
      rw [runSearchLoop_cons_skip env detailed name dataset store tr clock i
        rest h1]
      obtain ⟨htr, hany, hid⟩ := ih hndr store tr clock
      refine ⟨?_, ?_, ?_⟩
      · rw [htr, List.filter_cons]
        simp [h0]
      · rw [hany, List.filter_cons]
        simp [h0]
      · intro m
        rw [hid m]
        by_cases hmi : m = i
        · subst hmi
          simp [h0, hi]
        · simp [hmi]

/-- Every artifact the search loop appends is a search artifact for some id in
the remaining id list, holding exactly the persisted (possibly trimmed) search
stats; this holds for either value of `skip_if_exists`. -/
theorem runSearchLoop_newArts (env : Backend) (detailed : Bool)
    (name dataset : String) (sie : Bool) :
    ∀ (l : List Nat) (store : Store) (tr : List Event) (clock : Nat),
    ∃ new,
      (runSearchLoop env detailed name dataset sie store tr clock l).1 =
        store ++ new
      ∧ ∀ a ∈ new, ∃ i, i ∈ l ∧ a.experiment = name ∧ a.dataset = dataset ∧
          a.stage = Stage.search i ∧
          a.results = searchPersisted env detailed i := by
  intro l
  induction l with
  | nil =>
    intro store tr clock
    exact ⟨[], by simp [runSearchLoop], by simp⟩
  | cons i rest ih =>
    intro store tr clock
    rw [runSearchLoop]
    split
    · obtain ⟨new, h1, h2⟩ := ih store tr clock
      refine ⟨new, h1, fun a ha => ?_⟩
      obtain ⟨j, hj, hrest⟩ := h2 a ha
      exact ⟨j, List.mem_cons_of_mem _ hj, hrest⟩
    · obtain ⟨new, h1, h2⟩ := ih
        (store ++ [⟨name, dataset, .search i, clock,
          searchPersisted env detailed i⟩])
        (tr ++ [.search i]) (clock + 1)
      refine ⟨⟨name, dataset, .search i, clock,
        searchPersisted env detailed i⟩ :: new, by simpa using h1,
        fun a ha => ?_⟩
      rcases List.mem_cons.mp ha with h | h
      · exact ⟨i, List.mem_cons_self i rest, by simp [h]⟩
      · obtain ⟨j, hj, hrest⟩ := h2 a h
        exact ⟨j, List.mem_cons_of_mem _ hj, hrest⟩

/-- Per-run per-id bound: the search loop increases the artifact count of a
given search id by at most its multiplicity in the id list (so by at most one
for the duplicate-free `range numSearchers`), regardless of flags. -/
theorem runSearchLoop_countId_le (env : Backend) (detailed : Bool)
    (name dataset : String) (sie : Bool) :
    ∀ (l : List Nat) (store : Store) (tr : List Event) (clock : Nat) (i : Nat),
    countId (runSearchLoop env detailed name dataset sie store tr clock l).1
      name dataset i ≤ countId store name dataset i + l.count i := by
  intro l
  induction l with
  | nil =>
    intro store tr clock i
    simp [runSearchLoop]
  | cons j rest ih =>
    intro store tr clock i
    rw [runSearchLoop]
    split
    · refine le_trans (ih store tr clock i) ?_
      rw [List.count_cons]
      omega
    · dsimp only
      refine le_trans (ih _ _ _ i) ?_
      rw [countId_append, countId_searchArt, List.count_cons]
      by_cases hij : i = j
      · simp [hij]
        omega
      · simp [hij]

/-- For `j < N`, exactly `N - 1` of the ids `0, …, N-1` differ from `j`. -/
theorem length_filter_range_ne (N j : Nat) (hj : j < N) :
    ((List.range N).filter (fun i => decide (¬ i = j))).length = N - 1 := by
  have hd := List.nodup_range N
  have h1 : (List.range N).erase j =
      (List.range N).filter (fun i => decide (¬ i = j)) := by
    simpa using hd.erase_eq_filter j
  rw [← h1, List.length_erase_of_mem (List.mem_range.mpr hj),
    List.length_range]

/-! ### Behaviour of `run_experiment` -/

/-- The whole-run skip (client.py lines 97–104): under `skip_if_exists`, when
the count of `search-*-*` artifacts equals the number of searchers, the run
returns before any stage, leaving the store untouched. -/
theorem run_experiment_skip (env : Backend) (detailed : Bool)
    (name dataset : String) (flags : RunFlags) (store : Store) (clock : Nat)
    (hsie : flags.skipIfExists = true)
    (hc : countAny store name dataset = env.numSearchers) :
    run_experiment env detailed name dataset flags store clock =
      (store, [], clock) := by
  rw [run_experiment, if_pos]
  rw [hsie, hc]
  simp

/-- Joint behaviour of a non-skipped run with the search stage enabled:
per-id counts, the total search-artifact count, and which search events fire,
all in terms of the counts in the starting store. -/
theorem run_experiment_search_spec (env : Backend) (detailed : Bool)
    (name dataset : String) (flags : RunFlags) (store : Store) (clock : Nat)
    (hsie : flags.skipIfExists = true) (hss : flags.skipSearch = false)
    (hne : countAny store name dataset ≠ env.numSearchers) :
    (∀ m, countId
        (run_experiment env detailed name dataset flags store clock).1
        name dataset m =
      if m < env.numSearchers ∧ countId store name dataset m = 0
      then 1 else countId store name dataset m)
    ∧ countAny (run_experiment env detailed name dataset flags store clock).1
        name dataset = countAny store name dataset +
        ((List.range env.numSearchers).filter
          (fun i => countId store name dataset i == 0)).length
    ∧ (∀ j, Event.search j ∈
        (run_experiment env detailed name dataset flags store clock).2.1 ↔
        (j < env.numSearchers ∧ countId store name dataset j = 0)) := by
  obtain ⟨su, ss, sie, sc⟩ := flags
  simp only [RunFlags.skipIfExists] at hsie
  simp only [RunFlags.skipSearch] at hss
  subst hsie hss
  rw [run_experiment, if_neg (by simp [hne])]
  cases su
  case false =>
    -- upload runs: one upload artifact is appended first; it matches no
    -- search glob, so all counts agree with the starting store
    simp only [Bool.not_false, Bool.false_and, eq_self_iff_true, if_true,
      Bool.false_eq_true, if_false]
    set base : Store :=
      store ++ [⟨name, dataset, .upload, clock, uploadPersisted env detailed⟩]
      with hbase
    have hidb : ∀ m, countId base name dataset m =
        countId store name dataset m := by
      intro m
      simp [hbase, countId_append, countId_upload]
    have hanyb : countAny base name dataset = countAny store name dataset := by
      simp [hbase, countAny_append, countAny_upload]
    set trc : List Event :=
      if !sc then [Event.configure] else [] with htrc
    obtain ⟨htr, hany, hid⟩ := runSearchLoop_spec env detailed name dataset
      (List.range env.numSearchers) (List.nodup_range env.numSearchers)
      base (trc ++ [Event.upload]) (clock + 1)
    have hfeq : (List.range env.numSearchers).filter
          (fun i => countId base name dataset i == 0) =
        (List.range env.numSearchers).filter
          (fun i => countId store name dataset i == 0) :=
      List.filter_congr (fun i _ => by rw [hidb])
    refine ⟨?_, ?_, ?_⟩
    · intro m
      rw [hid m, hidb]
      simp [List.mem_range]
    · rw [hany, hanyb, hfeq]
    · intro j
      rw [htr, hfeq]
      constructor
      · intro hmem
        rcases List.mem_append.mp hmem with h | h
        · exfalso
          rcases List.mem_append.mp h with h' | h'
          · rw [htrc] at h'
            rcases em (sc = true) with he | he <;>
              simp [he] at h'
          · simp at h'
        · obtain ⟨i, hi, hij⟩ := List.mem_map.mp h
          obtain ⟨hir, hic⟩ := List.mem_filter.mp hi
          cases hij
          exact ⟨List.mem_range.mp hir, by simpa using hic⟩
      · intro ⟨hj, hc0⟩
        refine List.mem_append.mpr (Or.inr ?_)
        exact List.mem_map.mpr ⟨j, List.mem_filter.mpr
          ⟨List.mem_range.mpr hj, by simpa using hc0⟩, rfl⟩
  case true =>
    -- upload skipped: the loop starts from the unchanged store
    simp only [Bool.not_true, Bool.not_false, Bool.true_and,
      eq_self_iff_true, if_true, Bool.false_eq_true, if_false,
      List.nil_append]
    set tr2 : List Event :=
      if env.hasEnsureLoaded then [Event.ensureLoaded] else [] with htr2
    obtain ⟨htr, hany, hid⟩ := runSearchLoop_spec env detailed name dataset
      (List.range env.numSearchers) (List.nodup_range env.numSearchers)
      store tr2 clock
    refine ⟨?_, ?_, ?_⟩
    · intro m
      rw [hid m]
      simp [List.mem_range]
    · exact hany
    · intro j
      rw [htr]
      constructor
      · intro hmem
        rcases List.mem_append.mp hmem with h | h
        · exfalso
          rw [htr2] at h
          rcases em env.hasEnsureLoaded with he | he <;> simp [he] at h
        · obtain ⟨i, hi, hij⟩ := List.mem_map.mp h
          obtain ⟨hir, hic⟩ := List.mem_filter.mp hi
          cases hij
          exact ⟨List.mem_range.mp hir, by simpa using hic⟩
      · intro ⟨hj, hc0⟩
        refine List.mem_append.mpr (Or.inr ?_)
        exact List.mem_map.mpr ⟨j, List.mem_filter.mpr
          ⟨List.mem_range.mpr hj, by simpa using hc0⟩, rfl⟩

/-- C1: with `skipIfExists=true`, if before any work the number of existing
Search artifacts matching `(experiment, dataset, *)` equals the number of
configured search configurations, `run_experiment` returns with no stage
invocation (empty trace — no Configure, Upload or Searcher) and an unchanged
store; and after a first run with the search stage enabled starting from zero
Search artifacts, the store holds the full set, so a second identical
invocation is such a no-op, creating zero additional Search artifacts. -/
theorem claim_C1_full_run_skip (env : Backend) (detailed : Bool)
    (name dataset : String) (flags : RunFlags) (store : Store) (clock : Nat)
    (hsie : flags.skipIfExists = true) :
    (countAny store name dataset = env.numSearchers →
      run_experiment env detailed name dataset flags store clock =
        (store, [], clock))
    ∧ (flags.skipSearch = false → countAny store name dataset = 0 →
      countAny
        (run_experiment env detailed name dataset flags store clock).1
        name dataset = env.numSearchers
      ∧ run_experiment env detailed name dataset flags
          (run_experiment env detailed name dataset flags store clock).1
          (run_experiment env detailed name dataset flags store clock).2.2 =
        ((run_experiment env detailed name dataset flags store clock).1, [],
         (run_experiment env detailed name dataset flags store clock).2.2)) := by
  constructor
  · intro hc
    exact run_experiment_skip env detailed name dataset flags store clock
      hsie hc
  · intro hss h0
    by_cases hN : env.numSearchers = 0
    · have hc : countAny store name dataset = env.numSearchers := by
        rw [h0, hN]
      have h1 := run_experiment_skip env detailed name dataset flags store
        clock hsie hc
      rw [h1]
      exact ⟨hc, run_experiment_skip env detailed name dataset flags store
        clock hsie hc⟩
    · have hne : countAny store name dataset ≠ env.numSearchers := by
        rw [h0]
        exact fun h => hN h.symm
      obtain ⟨hid, hany, htr⟩ := run_experiment_search_spec env detailed
        name dataset flags store clock hsie hss hne
      have hfull : countAny
          (run_experiment env detailed name dataset flags store clock).1
          name dataset = env.numSearchers := by
        rw [hany, h0]
        have hall : (List.range env.numSearchers).filter
            (fun i => countId store name dataset i == 0) =
            List.range env.numSearchers := by
          refine List.filter_eq_self.mpr (fun i _ => ?_)
          simp [countId_eq_zero_of_countAny store name dataset h0 i]
        rw [hall, List.length_range]
        omega
      exact ⟨hfull, run_experiment_skip env detailed name dataset flags _ _
        hsie hfull⟩

/-- Witness for C1: with the two-searcher backend, default flags and an empty
store, the first run creates the full set of two Search artifacts and the
second invocation returns its store unchanged with an empty trace. -/
theorem claim_C1_full_run_skip_witness :
    countAny (run_experiment sampleEnv false "e" "d" {} [] 0).1 "e" "d" =
      sampleEnv.numSearchers
    ∧ run_experiment sampleEnv false "e" "d" {}
        (run_experiment sampleEnv false "e" "d" {} [] 0).1
        (run_experiment sampleEnv false "e" "d" {} [] 0).2.2 =
      ((run_experiment sampleEnv false "e" "d" {} [] 0).1, [],
       (run_experiment sampleEnv false "e" "d" {} [] 0).2.2) :=
  (claim_C1_full_run_skip sampleEnv false "e" "d" {} [] 0 rfl).2 rfl rfl

/-- C2: with `skipIfExists=true` and the search stage enabled, if exactly one
Search artifact exists for `(experiment, dataset)` and it carries search id
`j < numSearchers`, then the run never fires searcher `j`, the count for id
`j` stays exactly `1` (never re-created), every other configured id ends with
exactly one artifact (the remaining `N-1` are created), and the total reaches
`numSearchers`. -/
theorem claim_C2_per_config_resume (env : Backend) (detailed : Bool)
    (name dataset : String) (flags : RunFlags) (store : Store) (clock : Nat)
    (a : Artifact) (j : Nat)
    (hsie : flags.skipIfExists = true) (hss : flags.skipSearch = false)
    (hone : store.filter (matchesSearchAny name dataset) = [a])
    (hstage : a.stage = Stage.search j) (hj : j < env.numSearchers) :
    Event.search j ∉
      (run_experiment env detailed name dataset flags store clock).2.1
    ∧ countId (run_experiment env detailed name dataset flags store clock).1
        name dataset j = 1
    ∧ (∀ i, i < env.numSearchers → i ≠ j →
        countId (run_experiment env detailed name dataset flags store clock).1
          name dataset i = 1)
    ∧ countAny (run_experiment env detailed name dataset flags store clock).1
        name dataset = env.numSearchers := by
  have hany1 : countAny store name dataset = 1 := by
    rw [countAny, hone]
    rfl
  have hfid : ∀ i, store.filter (matchesSearchId name dataset i) =
      List.filter (fun x => x.stage == Stage.search i) [a] := by
    intro i
    have hcomm : store.filter (matchesSearchId name dataset i) =
        (store.filter (matchesSearchAny name dataset)).filter
          (fun x => x.stage == Stage.search i) := by
      rw [List.filter_filter]
      exact (List.filter_congr (fun x _ => by
        rw [matchesSearchId_eq, Bool.and_comm])).symm
    rw [hcomm, hone]
  have hcidj : countId store name dataset j = 1 := by
    rw [countId, hfid j]
    simp [hstage]
  have hcidi : ∀ i, i ≠ j → countId store name dataset i = 0 := by
    intro i hij
    rw [countId, hfid i]
    simp [hstage]
    exact fun h => absurd h.symm hij
  by_cases hN1 : env.numSearchers = 1
  · -- N = 1: the whole-run check fires and nothing at all is re-run
    have hc : countAny store name dataset = env.numSearchers := by
      rw [hany1, hN1]
    have hrun := run_experiment_skip env detailed name dataset flags store
      clock hsie hc
    rw [hrun]
    refine ⟨by simp, hcidj, ?_, hc⟩
    intro i hi hij
    rw [hN1] at hi
    rw [hN1] at hj
    omega
  · have hne : countAny store name dataset ≠ env.numSearchers := by
      rw [hany1]
      omega
    obtain ⟨hid, hany, htr⟩ := run_experiment_search_spec env detailed
      name dataset flags store clock hsie hss hne
    refine ⟨?_, ?_, ?_, ?_⟩
    · intro hmem
      obtain ⟨_, h0⟩ := (htr j).mp hmem
      rw [hcidj] at h0
      exact one_ne_zero h0
    · rw [hid j, hcidj]
      simp
    · intro i hi hij
      rw [hid i]
      simp [hi, hcidi i hij]
    · rw [hany, hany1]
      have hfeq : (List.range env.numSearchers).filter
            (fun i => countId store name dataset i == 0) =
          (List.range env.numSearchers).filter
            (fun i => decide (¬ i = j)) := by
        refine List.filter_congr (fun i _ => ?_)
        by_cases hij : i = j
        · subst hij
          simp [hcidj]
        · simp [hcidi i hij, hij]
      rw [hfeq, length_filter_range_ne env.numSearchers j hj]
      omega

/-- Witness for C2: with the two-searcher backend, a store holding exactly one
Search artifact (for id 0), re-running fires only searcher 1, leaves id 0 at
one artifact, and ends with the full set of two. -/
theorem claim_C2_per_config_resume_witness :
    Event.search 0 ∉
      (run_experiment sampleEnv false "e" "d" {}
        [⟨"e", "d", .search 0, 99, []⟩] 0).2.1
    ∧ countId (run_experiment sampleEnv false "e" "d" {}
        [⟨"e", "d", .search 0, 99, []⟩] 0).1 "e" "d" 0 = 1
    ∧ countId (run_experiment sampleEnv false "e" "d" {}
        [⟨"e", "d", .search 0, 99, []⟩] 0).1 "e" "d" 1 = 1
    ∧ countAny (run_experiment sampleEnv false "e" "d" {}
        [⟨"e", "d", .search 0, 99, []⟩] 0).1 "e" "d" =
      sampleEnv.numSearchers :=
  have h := claim_C2_per_config_resume sampleEnv false "e" "d" {}
    [⟨"e", "d", .search 0, 99, []⟩] 0 ⟨"e", "d", .search 0, 99, []⟩ 0
    rfl rfl (by decide) rfl (by decide)
  ⟨h.1, h.2.1, h.2.2.1 1 (by decide) (by decide), h.2.2.2⟩

theorem storeInv_countAny_le (env : Backend) (name dataset : String)
    (store : Store) (hinv : storeInv env name dataset store) :
    countAny store name dataset ≤ env.numSearchers := by
  obtain ⟨h1, _, h3⟩ := hinv
  rw [h3]
  have := List.sum_le_card_nsmul
    ((List.range env.numSearchers).map
      (fun i => countId store name dataset i)) 1
    (by
      intro x hx
      obtain ⟨i, _, hi⟩ := List.mem_map.mp hx
      exact hi ▸ h1 i)
  simpa using this

theorem sum_map_if_zero (l : List Nat) (f : Nat → Nat) :
    (l.map (fun i => if f i = 0 then 1 else f i)).sum =
      (l.map f).sum + l.countP (fun i => f i == 0) := by
  induction l with
  | nil => simp
  | cons a t ih =>
    simp only [List.map_cons, List.sum_cons, List.countP_cons, ih]
    by_cases h : f a = 0 <;> simp [h] <;> omega

/-- Counts are untouched when the search stage is skipped. -/
theorem run_experiment_counts_skipSearch (env : Backend) (detailed : Bool)
    (name dataset : String) (flags : RunFlags) (store : Store) (clock : Nat)
    (hss : flags.skipSearch = true) :
    (∀ m, countId
        (run_experiment env detailed name dataset flags store clock).1
        name dataset m = countId store name dataset m)
    ∧ countAny (run_experiment env detailed name dataset flags store clock).1
        name dataset = countAny store name dataset := by
  obtain ⟨su, ss, sie, sc⟩ := flags
  simp only [RunFlags.skipSearch] at hss
  subst hss
  rw [run_experiment]
  split
  · exact ⟨fun m => rfl, rfl⟩
  · cases su
    case false =>
      simp only [Bool.not_false, Bool.not_true, eq_self_iff_true, if_true,
        Bool.false_eq_true, if_false]
      constructor
      · intro m
        simp [countId_append, countId_upload]
      · simp [countAny_append, countAny_upload]
    case true =>
      simp only [Bool.not_false, Bool.not_true, eq_self_iff_true, if_true,
        Bool.false_eq_true, if_false]
      exact ⟨fun m => trivial, trivial⟩

/-- One run with `skip_if_exists=True` preserves the store invariant. -/
theorem run_experiment_preserves_inv (env : Backend) (detailed : Bool)
    (name dataset : String) (flags : RunFlags) (store : Store) (clock : Nat)
    (hsie : flags.skipIfExists = true)
    (hinv : storeInv env name dataset store) :
    storeInv env name dataset
      (run_experiment env detailed name dataset flags store clock).1 := by
  obtain ⟨h1, h2, h3⟩ := hinv
  by_cases hc : countAny store name dataset = env.numSearchers
  · rw [run_experiment_skip env detailed name dataset flags store clock
      hsie hc]
    exact ⟨h1, h2, h3⟩
  · by_cases hss : flags.skipSearch = true
    · obtain ⟨hid, hany⟩ := run_experiment_counts_skipSearch env detailed
        name dataset flags store clock hss
      refine ⟨fun i => ?_, fun i hi => ?_, ?_⟩
      · rw [hid i]; exact h1 i
      · rw [hid i]; exact h2 i hi
      · rw [hany, h3]
        exact congrArg List.sum
          (List.map_congr_left (fun i _ => (hid i).symm))
    · have hss' : flags.skipSearch = false := by
        cases h : flags.skipSearch
        · rfl
        · exact absurd h hss
      obtain ⟨hid, hany, _⟩ := run_experiment_search_spec env detailed
        name dataset flags store clock hsie hss' hc
      refine ⟨fun i => ?_, fun i hi => ?_, ?_⟩
      · rw [hid i]
        split
        · exact le_refl 1
        · exact h1 i
      · rw [hid i]
        have : ¬ (i < env.numSearchers ∧ countId store name dataset i = 0) :=
          fun h => absurd h.1 (Nat.not_lt.mpr hi)
        rw [if_neg this]
        exact h2 i hi
      · rw [hany, h3]
        have hmapeq : (List.range env.numSearchers).map
            (fun i => countId
              (run_experiment env detailed name dataset flags store clock).1
              name dataset i) =
            (List.range env.numSearchers).map
              (fun i => if countId store name dataset i = 0 then 1
                else countId store name dataset i) := by
          refine List.map_congr_left (fun i hi => ?_)
          rw [hid i]
          simp [List.mem_range.mp hi]
        rw [hmapeq, sum_map_if_zero, List.countP_eq_length_filter]

/-- The store invariant is preserved by any sequence of runs that all use
`skip_if_exists=True`. -/
theorem runSeq_preserves_inv (env : Backend) (name dataset : String) :
    ∀ (runs : List (Bool × RunFlags)) (sc : Store × Nat),
    (∀ p ∈ runs, p.2.skipIfExists = true) →
    storeInv env name dataset sc.1 →
    storeInv env name dataset (runSeq env name dataset sc runs).1 := by
  intro runs
  induction runs with
  | nil =>
    intro sc _ hinv
    exact hinv
  | cons p rest ih =>
    intro sc hall hinv
    obtain ⟨detailed, flags⟩ := p
    exact ih _ (fun q hq => hall q (List.mem_cons_of_mem _ hq))
      (run_experiment_preserves_inv env detailed name dataset flags sc.1 sc.2
        (hall _ (List.mem_cons_self _ _)) hinv)

/-- Per-run, per-id write bound: a single `run_experiment` invocation raises
the artifact count of any search id by at most one, for any flag values. -/
theorem run_experiment_countId_le (env : Backend) (detailed : Bool)
    (name dataset : String) (flags : RunFlags) (store : Store)
    (clock i : Nat) :
    countId (run_experiment env detailed name dataset flags store clock).1
      name dataset i ≤ countId store name dataset i + 1 := by
  by_cases hss : flags.skipSearch = true
  · rw [(run_experiment_counts_skipSearch env detailed name dataset flags
      store clock hss).1 i]
    omega
  · have hss' : flags.skipSearch = false := by
      cases h : flags.skipSearch
      · rfl
      · exact absurd h hss
    obtain ⟨su, ss, sie, sc⟩ := flags
    simp only [RunFlags.skipSearch] at hss'
    subst hss'
    rw [run_experiment]
    split
    · exact Nat.le_succ _
    · have hcount : (List.range env.numSearchers).count i ≤ 1 :=
        List.nodup_iff_count_le_one.mp (List.nodup_range env.numSearchers) i
      cases su
      · simp only [Bool.not_false, Bool.not_true, eq_self_iff_true, if_true,
          Bool.false_eq_true, if_false, Bool.false_and]
        refine le_trans (runSearchLoop_countId_le env detailed name dataset
          sie (List.range env.numSearchers) _ _ _ i) ?_
        rw [countId_append, countId_upload]
        omega
      · simp only [Bool.not_false, Bool.not_true, eq_self_iff_true, if_true,
          Bool.false_eq_true, if_false, Bool.true_and]
        refine le_trans (runSearchLoop_countId_le env detailed name dataset
          sie (List.range env.numSearchers) _ _ _ i) ?_
        omega

/-- Counterexample to C5 as stated: the claim quantifies over every sequence
of `run_experiment` invocations, but with `skip_if_exists=False` (an argument
the source accepts) two successive runs against an initially empty store
write two Search artifacts for the single configured search configuration,
exceeding `numSearchers = 1`. -/
theorem claim_C5_counterexample :
    oneEnv.numSearchers = 1
    ∧ countAny (runSeq oneEnv "e" "d" ([], 0)
        [(false, ⟨false, false, false, false⟩),
         (false, ⟨false, false, false, false⟩)]).1 "e" "d" = 2 := by
  constructor
  · rfl
  · decide

/-- C5 (amended): for runs that all use `skip_if_exists=True`, starting from
a store with no Search artifacts for the `(experiment, dataset)` pair, the
number of Search artifacts never exceeds the number of configured search
configurations; and — unconditionally, for any flags — a single run writes at
most one Search artifact per search-config-id. -/
theorem claim_C5_artifact_bound (env : Backend) (name dataset : String)
    (runs : List (Bool × RunFlags)) (store : Store) (clock : Nat)
    (hall : ∀ p ∈ runs, p.2.skipIfExists = true)
    (h0 : countAny store name dataset = 0) :
    countAny (runSeq env name dataset (store, clock) runs).1 name dataset ≤
      env.numSearchers
    ∧ ∀ (detailed : Bool) (flags : RunFlags) (st : Store) (c i : Nat),
        countId (run_experiment env detailed name dataset flags st c).1
          name dataset i ≤ countId st name dataset i + 1 := by
  constructor
  · have hinv : storeInv env name dataset store := by
      refine ⟨fun i => ?_, fun i _ => ?_, ?_⟩
      · rw [countId_eq_zero_of_countAny store name dataset h0 i]
        omega
      · exact countId_eq_zero_of_countAny store name dataset h0 i
      · rw [h0]
        have : (List.range env.numSearchers).map
            (fun i => countId store name dataset i) =
            (List.range env.numSearchers).map (fun _ => 0) :=
          List.map_congr_left (fun i _ =>
            countId_eq_zero_of_countAny store name dataset h0 i)
        rw [this]
        simp
    exact storeInv_countAny_le env name dataset _
      (runSeq_preserves_inv env name dataset runs (store, clock) hall hinv)
  · intro detailed flags st c i
    exact run_experiment_countId_le env detailed name dataset flags st c i

/-- Witness for C5 (amended): two default-flag runs from an empty store stay
within the two-searcher bound, and a concrete single run adds at most one
artifact for id 0. -/
theorem claim_C5_artifact_bound_witness :
    countAny (runSeq sampleEnv "e" "d" ([], 0)
        [(false, {}), (false, {})]).1 "e" "d" ≤ sampleEnv.numSearchers
    ∧ countId (run_experiment sampleEnv false "e" "d" {} [] 0).1
        "e" "d" 0 ≤ countId ([] : Store) "e" "d" 0 + 1 :=
  ⟨(claim_C5_artifact_bound sampleEnv "e" "d" [(false, {}), (false, {})]
      [] 0 (by decide) rfl).1,
   (claim_C5_artifact_bound sampleEnv "e" "d" [(false, {}), (false, {})]
      [] 0 (by decide) rfl).2 false {} [] 0 0⟩

/-! ### The detailed-results toggle (claim C4) -/

theorem mem_popKey (s : Stats) (k x : String) :
    x ∈ popKey s k ↔ x ∈ s ∧ x ≠ k := by
  simp [popKey, List.mem_filter]

theorem not_mem_popKey (s : Stats) (k : String) : k ∉ popKey s k := by
  simp [mem_popKey]

theorem latencies_not_mem_searchPersisted (env : Backend) (i : Nat) :
    "latencies" ∉ searchPersisted env false i := by
  intro h
  rw [searchPersisted] at h
  simp only [Bool.not_false, if_true] at h
  exact absurd ((mem_popKey _ _ _).mp h).1 (not_mem_popKey _ _)

theorem precisions_not_mem_searchPersisted (env : Backend) (i : Nat) :
    "precisions" ∉ searchPersisted env false i := by
  intro h
  rw [searchPersisted] at h
  simp only [Bool.not_false, if_true] at h
  exact absurd h (not_mem_popKey _ _)

theorem latencies_not_mem_uploadPersisted (env : Backend) :
    "latencies" ∉ uploadPersisted env false := by
  intro h
  rw [uploadPersisted] at h
  simp only [Bool.not_false, if_true] at h
  exact absurd h (not_mem_popKey _ _)

/-- The trace grown by the search loop consists of search events only. -/
theorem runSearchLoop_trace (env : Backend) (detailed : Bool)
    (name dataset : String) (sie : Bool) :
    ∀ (l : List Nat) (store : Store) (tr : List Event) (clock : Nat),
    ∃ strace,
      (runSearchLoop env detailed name dataset sie store tr clock l).2.1 =
        tr ++ strace
      ∧ ∀ e ∈ strace, ∃ i, e = Event.search i := by
  intro l
  induction l with
  | nil =>
    intro store tr clock
    exact ⟨[], by simp [runSearchLoop], by simp⟩
  | cons i rest ih =>
    intro store tr clock
    rw [runSearchLoop]
    split
    · exact ih store tr clock
    · obtain ⟨strace, h1, h2⟩ := ih _ (tr ++ [.search i]) (clock + 1)
      refine ⟨Event.search i :: strace, by simpa using h1, fun e he => ?_⟩
      rcases List.mem_cons.mp he with h | h
      · exact ⟨i, h⟩
      · exact h2 e h

/-- Every artifact appended by one run: an Upload artifact carries exactly
`uploadPersisted`, a Search artifact for id `i` carries exactly
`searchPersisted i`. -/
theorem run_experiment_newArts (env : Backend) (detailed : Bool)
    (name dataset : String) (flags : RunFlags) (store : Store) (clock : Nat) :
    ∃ new, (run_experiment env detailed name dataset flags store clock).1 =
        store ++ new
      ∧ ∀ a ∈ new,
          (a.stage = Stage.upload ∧ a.results = uploadPersisted env detailed)
          ∨ ∃ i, a.stage = Stage.search i ∧
              a.results = searchPersisted env detailed i := by
  obtain ⟨su, ss, sie, sc⟩ := flags
  rw [run_experiment]
  split
  · exact ⟨[], by simp, by simp⟩
  · cases ss
    · -- search stage runs
      cases su
      · -- upload runs first
        simp only [Bool.not_false, Bool.not_true, eq_self_iff_true, if_true,
          Bool.false_eq_true, if_false, Bool.false_and]
        obtain ⟨new2, h1, h2⟩ := runSearchLoop_newArts env detailed name
          dataset sie (List.range env.numSearchers)
          (store ++ [⟨name, dataset, .upload, clock,
            uploadPersisted env detailed⟩])
          ((if (!sc) = true then [Event.configure] else []) ++ [Event.upload])
          (clock + 1)
        refine ⟨⟨name, dataset, .upload, clock,
          uploadPersisted env detailed⟩ :: new2, by simpa using h1,
          fun a ha => ?_⟩
        rcases List.mem_cons.mp ha with h | h
        · exact Or.inl ⟨by rw [h], by rw [h]⟩
        · obtain ⟨i, _, _, _, hst, hres⟩ := h2 a h
          exact Or.inr ⟨i, hst, hres⟩
      · -- upload skipped
        simp only [Bool.not_false, Bool.not_true, eq_self_iff_true, if_true,
          Bool.false_eq_true, if_false, Bool.true_and]
        obtain ⟨new2, h1, h2⟩ := runSearchLoop_newArts env detailed name
          dataset sie (List.range env.numSearchers) store
          (if env.hasEnsureLoaded = true then [] ++ [Event.ensureLoaded]
           else []) clock
        refine ⟨new2, h1, fun a ha => ?_⟩
        obtain ⟨i, _, _, _, hst, hres⟩ := h2 a ha
        exact Or.inr ⟨i, hst, hres⟩
    · -- search stage skipped
      cases su
      · simp only [Bool.not_false, Bool.not_true, eq_self_iff_true, if_true,
          Bool.false_eq_true, if_false]
        refine ⟨[⟨name, dataset, .upload, clock,
          uploadPersisted env detailed⟩], rfl, fun a ha => ?_⟩
        rcases List.mem_cons.mp ha with h | h
        · exact Or.inl ⟨by rw [h], by rw [h]⟩
        · exact absurd h (List.not_mem_nil a)
      · simp only [Bool.not_false, Bool.not_true, eq_self_iff_true, if_true,
          Bool.false_eq_true, if_false]
        exact ⟨[], by simp, by simp⟩

/-- Counterexample to C4 as stated: with the detailed-results toggle off, the
runner pops only `latencies` from upload results (client.py line 118), so an
Upload artifact whose backend stats contain `precisions` is persisted with
that key still present, contradicting "every persisted Upload and Search
artifact contains neither a latencies key nor a precisions key". -/
theorem claim_C4_counterexample :
    "precisions" ∈ uploadPersisted precEnv false
    ∧ (run_experiment precEnv false "e" "d" {} [] 0).1 =
      [⟨"e", "d", .upload, 0, ["precisions", "upload_time"]⟩,
       ⟨"e", "d", .search 0, 1, ["rps"]⟩] := by
  constructor
  · decide
  · decide

/-- C4 (amended): with the toggle off, every artifact a run appends has no
`latencies` key, and Search artifacts additionally have no `precisions` key
(Upload artifacts keep `precisions` if the backend supplied it — only
`latencies` is popped from upload results); with the toggle on, results are
persisted exactly as the backend supplied them, so every supplied key is
present. -/
theorem claim_C4_detailed_toggle (env : Backend) (detailed : Bool)
    (name dataset : String) (flags : RunFlags) (store : Store) (clock : Nat) :
    ∃ new, (run_experiment env detailed name dataset flags store clock).1 =
        store ++ new
      ∧ ∀ a ∈ new,
          (detailed = false →
            "latencies" ∉ a.results
            ∧ (∀ i, a.stage = Stage.search i → "precisions" ∉ a.results))
          ∧ (detailed = true →
            (a.stage = Stage.upload → a.results = env.uploadStats)
            ∧ (∀ i, a.stage = Stage.search i →
                a.results = env.searchStats i)) := by
  obtain ⟨new, h1, h2⟩ := run_experiment_newArts env detailed name dataset
    flags store clock
  refine ⟨new, h1, fun a ha => ⟨?_, ?_⟩⟩
  · intro hd
    subst hd
    rcases h2 a ha with ⟨hst, hres⟩ | ⟨i, hst, hres⟩
    · refine ⟨hres ▸ latencies_not_mem_uploadPersisted env, ?_⟩
      intro i hsti
      rw [hst] at hsti
      exact absurd hsti (by simp)
    · refine ⟨hres ▸ latencies_not_mem_searchPersisted env i, ?_⟩
      intro k _
      exact hres ▸ precisions_not_mem_searchPersisted env i
  · intro hd
    subst hd
    rcases h2 a ha with ⟨hst, hres⟩ | ⟨i, hst, hres⟩
    · constructor
      · intro _
        rw [hres, uploadPersisted]
        simp
      · intro k hk
        rw [hst] at hk
        exact absurd hk (by simp)
    · constructor
      · intro hup
        rw [hst] at hup
        exact absurd hup (by simp)
      · intro k hk
        rw [hst] at hk
        have : i = k := by
          injection hk
        rw [hres, this, searchPersisted]
        simp

/-! ### The Configure stage (claim C6) -/

/-- Counterexample to C6 as stated: with `skip_upload=True` and
`skip_configure=False` (and no prior artifacts, `skip_if_exists=False`), the
run fires both searchers but never invokes Configure, because the Configure
call is nested inside the `if not skip_upload:` block (client.py lines
106–109). -/
theorem claim_C6_counterexample :
    (⟨true, false, false, false⟩ : RunFlags).skipConfigure = false
    ∧ Event.configure ∉
        (run_experiment sampleEnv false "e" "d"
          ⟨true, false, false, false⟩ [] 0).2.1 := by
  constructor
  · rfl
  · decide

/-- C6 (amended): Configure is invoked iff the run is not stopped by the
whole-run `skip_if_exists` check AND the upload stage is not skipped AND
`skip_configure` is false; when it is invoked, it is the first stage and is
immediately followed by Upload. -/
theorem claim_C6_configure_condition (env : Backend) (detailed : Bool)
    (name dataset : String) (flags : RunFlags) (store : Store) (clock : Nat) :
    (Event.configure ∈
        (run_experiment env detailed name dataset flags store clock).2.1 ↔
      (¬ (flags.skipIfExists = true
          ∧ countAny store name dataset = env.numSearchers)
       ∧ flags.skipUpload = false ∧ flags.skipConfigure = false))
    ∧ (Event.configure ∈
        (run_experiment env detailed name dataset flags store clock).2.1 →
      ∃ rest, (run_experiment env detailed name dataset flags store clock).2.1
        = Event.configure :: Event.upload :: rest) := by
  obtain ⟨su, ss, sie, sc⟩ := flags
  rw [run_experiment]
  split
  case isTrue h =>
    rw [Bool.and_eq_true, beq_iff_eq] at h
    simp only [RunFlags.skipIfExists]
    constructor
    · constructor
      · intro hmem
        exact absurd hmem (List.not_mem_nil _)
      · intro ⟨hns, _, _⟩
        exact absurd ⟨h.1, h.2⟩ hns
    · intro hmem
      exact absurd hmem (List.not_mem_nil _)
  case isFalse h =>
    rw [Bool.and_eq_true, beq_iff_eq] at h
    simp only [RunFlags.skipIfExists, RunFlags.skipUpload,
      RunFlags.skipConfigure]
    cases ss
    · -- search stage runs
      cases su
      · -- upload runs
        simp only [Bool.not_false, Bool.not_true, eq_self_iff_true, if_true,
          Bool.false_eq_true, if_false, Bool.false_and]
        obtain ⟨strace, h1, h2⟩ := runSearchLoop_trace env detailed name
          dataset sie (List.range env.numSearchers)
          (store ++ [⟨name, dataset, .upload, clock,
            uploadPersisted env detailed⟩])
          ((if (!sc) = true then [Event.configure] else []) ++ [Event.upload])
          (clock + 1)
        rw [h1]
        have hns : Event.configure ∉ strace := by
          intro hm
          obtain ⟨i, hi⟩ := h2 _ hm
          exact Event.noConfusion hi
        cases sc
        · simp only [Bool.not_false, if_true]
          constructor
          · simp [h]
          · intro _
            exact ⟨strace, rfl⟩
        · simp only [Bool.not_true, Bool.false_eq_true, if_false]
          constructor
          · constructor
            · intro hmem
              rcases List.mem_append.mp hmem with hm | hm
              · simp at hm
              · exact absurd hm hns
            · intro ⟨_, _, habs⟩
              exact Bool.noConfusion habs
          · intro hmem
            rcases List.mem_append.mp hmem with hm | hm
            · simp at hm
            · exact absurd hm hns
      · -- upload skipped: only ensure-loaded and search events can appear
        simp only [Bool.not_false, Bool.not_true, eq_self_iff_true, if_true,
          Bool.false_eq_true, if_false, Bool.true_and]
        obtain ⟨strace, h1, h2⟩ := runSearchLoop_trace env detailed name
          dataset sie (List.range env.numSearchers) store
          (if env.hasEnsureLoaded = true then [] ++ [Event.ensureLoaded]
           else []) clock
        rw [h1]
        have hns : Event.configure ∉ strace := by
          intro hm
          obtain ⟨i, hi⟩ := h2 _ hm
          exact Event.noConfusion hi
        have hnt : Event.configure ∉
            (if env.hasEnsureLoaded = true then [] ++ [Event.ensureLoaded]
             else ([] : List Event)) := by
          rcases em (env.hasEnsureLoaded = true) with he | he <;> simp [he]
        constructor
        · constructor
          · intro hmem
            rcases List.mem_append.mp hmem with hm | hm
            · exact absurd hm hnt
            · exact absurd hm hns
          · intro ⟨_, habs, _⟩
            exact Bool.noConfusion habs
        · intro hmem
          rcases List.mem_append.mp hmem with hm | hm
          · exact absurd hm hnt
          · exact absurd hm hns
    · -- search stage skipped
      cases su
      · simp only [Bool.not_false, Bool.not_true, eq_self_iff_true, if_true,
          Bool.false_eq_true, if_false]
        cases sc
        · simp only [Bool.not_false, if_true]
          constructor
          · simp [h]
          · intro _
            exact ⟨[], rfl⟩
        · simp only [Bool.not_true, Bool.false_eq_true, if_false]
          constructor
          · constructor
            · intro hmem
              simp at hmem
            · intro ⟨_, _, habs⟩
              exact Bool.noConfusion habs
          · intro hmem
            simp at hmem
      · simp only [Bool.not_false, Bool.not_true, eq_self_iff_true, if_true,
          Bool.false_eq_true, if_false]
        constructor
        · constructor
          · intro hmem
            simp at hmem
          · intro ⟨_, habs, _⟩
            exact Bool.noConfusion habs
        · intro hmem
          simp at hmem

/-- C3: whenever the tracer process was successfully launched, `run_profile`
performs — for every outcome of the measured stage, normal completion or any
raised exception — exactly one graceful-termination signal, exactly one
bounded wait, and a force-kill exactly when the tracer did not exit in time;
the whole stop sequence runs exactly once, in that order. -/
theorem claim_C3_tracer_stop (env : ProfileEnv)
    (h : env.launchOk = true) :
    (run_profile env).2 =
      [.launch, .terminate, .waitTimeout] ++
        (if env.gracefulExit then [] else [.kill])
    ∧ (run_profile env).2.count TracerAct.terminate = 1
    ∧ (run_profile env).2.count TracerAct.waitTimeout = 1
    ∧ ((run_profile env).2.count TracerAct.kill =
        if env.gracefulExit then 0 else 1)
    ∧ (run_profile env).1 = (if env.mainOk then .ok else .raised) := by
  obtain ⟨lo, mo, ge⟩ := env
  simp only at h
  subst h
  cases mo <;> cases ge <;> refine ⟨rfl, ?_, ?_, ?_, rfl⟩ <;> decide

/-- Witness for C3: launch succeeded, measured command raised, tracer ignores
the graceful signal — terminate, bounded wait, then kill, each exactly once,
and the exception still propagates. -/
theorem claim_C3_tracer_stop_witness :
    (run_profile ⟨true, false, false⟩).2 =
      [.launch, .terminate, .waitTimeout] ++
        (if (false : Bool) then [] else [.kill])
    ∧ (run_profile ⟨true, false, false⟩).2.count TracerAct.terminate = 1
    ∧ (run_profile ⟨true, false, false⟩).2.count TracerAct.waitTimeout = 1
    ∧ ((run_profile ⟨true, false, false⟩).2.count TracerAct.kill =
        if (false : Bool) then 0 else 1)
    ∧ (run_profile ⟨true, false, false⟩).1 =
        (if (false : Bool) then .ok else .raised) :=
  claim_C3_tracer_stop ⟨true, false, false⟩ rfl

/-- C10: in both sweep drivers, a cell whose steps all complete without
raising invokes `stop_docker_containers` exactly twice (once at the end of
the try body, once in the finally block) and propagates no exception; and in
every cell — in particular when a step raises — the finally block guarantees
at least one invocation. -/
theorem claim_C10_cell_teardown (env : CellEnv) :
    ((env.startOk = true ∧ (env.isExist = true ∨ env.uploadOk = true)
        ∧ env.waitOk = true ∧ env.profileOk = true ∧ env.stopOk = true) →
      cellPerf env = (2, false))
    ∧ ((env.startOk = true ∧ env.uploadOk = true ∧ env.waitOk = true
        ∧ env.profileOk = true ∧ env.stopOk = true) →
      cellProfile env = (2, false))
    ∧ 1 ≤ (cellPerf env).1
    ∧ 1 ≤ (cellProfile env).1 := by
  obtain ⟨a, b, c, d, e, f⟩ := env
  cases a <;> cases b <;> cases c <;> cases d <;> cases e <;> cases f <;>
    decide

/-- Counterexample to C7 as stated: the claim says every connection error
encountered by the recovery wait is caught and logged and the operation
returns normally — but `connections.connect` and `utility.has_collection`
run before the `try:` block, so a connection error in either propagates to
the caller: here `has_collection` raises right after a successful connect,
and the invocation returns that exception instead of a normal result (and
likewise for a connect-step failure). -/
theorem claim_C7_counterexample :
    wait_for_indexing_completion ⟨.ok (), .error "conn", false, [], []⟩ =
      .error "conn"
    ∧ wait_for_indexing_completion ⟨.error "conn", .ok true, false, [], []⟩ =
      .error "conn" :=
  ⟨rfl, rfl⟩

/-- C7 (amended): an exception raised inside the `try:` block — the flush,
an index-progress poll, or a compaction poll — is caught by the
`except Exception` handler, logged as a warning, and the function returns
normally to its caller, never propagating; but the `connections.connect` and
`utility.has_collection` steps run before the `try:` block, so a connection
error in either of those propagates. -/
theorem claim_C7_wait_error_scope (env : WaitEnv) :
    (∀ e, env.connectResult = .error e →
      wait_for_indexing_completion env = .error e)
    ∧ (∀ e, env.connectResult = .ok () → env.hasCollection = .error e →
      wait_for_indexing_completion env = .error e)
    ∧ (∀ b, env.connectResult = .ok () → env.hasCollection = .ok b →
      ∀ e, wait_for_indexing_completion env ≠ .error e)
    ∧ (env.connectResult = .ok () → env.hasCollection = .ok true →
      ∀ e, waitTryBody env = some (.error e) →
      wait_for_indexing_completion env = .ok .returnedWithWarning) := by
  refine ⟨?_, ?_, ?_, ?_⟩
  · intro e hc
    rw [wait_for_indexing_completion, hc]
  · intro e hc hcol
    rw [wait_for_indexing_completion, hc, hcol]
  · intro b hc hcol e
    rw [wait_for_indexing_completion, hc, hcol]
    cases b
    · simp
    · cases hb : waitTryBody env with
      | none => simp
      | some r => cases r <;> simp
  · intro hc hcol e hb
    rw [wait_for_indexing_completion, hc, hcol, hb]

/-- C8: a comm-event column whose count is zero (or absent, which reads as
zero) in at least one run row is absent from the filtered summary; a
comm-event non-zero in every row is retained, and every emitted row carries
its exact per-row count. -/
theorem claim_C8_summary_filter (agg : Agg) (cols ces : List String) :
    (∀ ce col, col ∈ cols → getCount agg ce col = 0 →
      ce ∉ commonCommEvents agg cols ces)
    ∧ (∀ ce, ce ∈ ces → (∀ col ∈ cols, getCount agg ce col ≠ 0) →
      ce ∈ commonCommEvents agg cols ces)
    ∧ (∀ row, row ∈ cols →
      (row, (commonCommEvents agg cols ces).map
        (fun ce => (ce, getCount agg ce row))) ∈
        summaryRows agg cols (commonCommEvents agg cols ces))
    ∧ (∀ row cells, (row, cells) ∈
        summaryRows agg cols (commonCommEvents agg cols ces) →
      ∀ ce, ce ∈ commonCommEvents agg cols ces →
        (ce, getCount agg ce row) ∈ cells) := by
  refine ⟨?_, ?_, ?_, ?_⟩
  · intro ce col hcol h0 hmem
    obtain ⟨_, hall⟩ := List.mem_filter.mp hmem
    rw [List.all_eq_true] at hall
    have := hall col hcol
    rw [h0] at this
    simp at this
  · intro ce hces hall
    refine List.mem_filter.mpr ⟨?_, ?_⟩
    · exact List.mem_mergeSort.mpr hces
    · rw [List.all_eq_true]
      intro col hcol
      have := hall col hcol
      simp [this]
  · intro row hrow
    exact List.mem_map.mpr ⟨row, hrow, rfl⟩
  · intro row cells hmem ce hce
    obtain ⟨r, _, heq⟩ := List.mem_map.mp hmem
    obtain ⟨h1, h2⟩ := Prod.mk.injEq .. ▸ heq
    subst h1
    subst h2
    exact List.mem_map.mpr ⟨ce, hce, rfl⟩

/-- C9 (divergence at a concrete input): the two variants do render identical
header lines and identical per-event lines, but the kernel-probe variant
writes one extra banner line before the events while the perf variant writes
none — and the downstream summarizer unconditionally skips two lines, so for
the same single-fault event stream it counts the event in the kernel-probe
file and loses it in the perf file: the counts differ, contradicting
variant-agnostic summarization. -/
theorem claim_C9_variant_divergence :
    bpfHeader = perfHeader
    ∧ (∀ e, bpfEventLine e = perfEventLine e)
    ∧ bpfFileLines [⟨⟨12241, 973464⟩, "python3", 736818, .majorFault⟩] =
        [bpfHeader, bpfBanner,
          bpfEventLine ⟨⟨12241, 973464⟩, "python3", 736818, .majorFault⟩]
    ∧ perfFileLines [⟨⟨12241, 973464⟩, "python3", 736818, .majorFault⟩] =
        [perfHeader,
          perfEventLine ⟨⟨12241, 973464⟩, "python3", 736818, .majorFault⟩]
    ∧ eventCounts
        (bpfFileLines [⟨⟨12241, 973464⟩, "python3", 736818, .majorFault⟩]) =
        [("python3-Major Fault", 1)]
    ∧ eventCounts
        (perfFileLines [⟨⟨12241, 973464⟩, "python3", 736818, .majorFault⟩]) =
        []
    ∧ eventCounts
        (bpfFileLines [⟨⟨12241, 973464⟩, "python3", 736818, .majorFault⟩]) ≠
      eventCounts
        (perfFileLines [⟨⟨12241, 973464⟩, "python3", 736818, .majorFault⟩]) := by
  refine ⟨rfl, ?_, rfl, rfl, ?_, ?_, ?_⟩
  · intro e
    cases e with
    | mk t c p k => cases k <;> rfl
  · decide
  · decide
  · decide

end VDB

